import Mathlib

/-! Verification of the go-nebulas transactional MVCC overlay and batch trie.

Shallow embedding of:
  - src/common/mvccdbv2/mvccdb.go  (the MVCCDB facade: Begin, Commit,
    RollBack, Get, Put, Del, Prepare, CheckAndUpdate, Reset,
    IsPreparedDBDirty);
  - the batch trie (BatchTrie: Get, Put, Del, BeginBatch, Commit, RollBack,
    MergeWith) from the unnamed trie source file.

Byte strings are modelled as `String`; a Go `[]byte` that may be nil is
`Option String` (none = nil).  Go maps are modelled as association lists in
insertion order; a nil Go map is `none : Option (List _)`.  Transaction
identities (value-typed in Go) are modelled as `Nat`, with `Option Nat`
where the source may hold nil.

The staging table (staging_table.go) is not among the repository files here;
only its caller mvccdb.go is.  Its operations are therefore modelled from
the specification text (section 4.2) and are each marked
"Modelled from the spec".  mvccdb.go itself is embedded from the source.
-/

/-- Keys of the key-value store, modelling opaque Go byte strings. -/
abbrev Key := String

/-- Values of the key-value store, modelling opaque Go byte strings. -/
abbrev Val := String

/-- The error taxonomy of mvccdbv2/mvccdb.go (lines 28-38) together with the
storage KeyNotFound sentinel and the ConflictWithSibling error of the
staging-table merge. -/
inductive Err where
  | nestedTransaction
  | transactionNotStarted
  | notPreparedDB
  | preparedBegin
  | preparedCommit
  | preparedRollback
  | preparedDBIsDirty
  | tidIsNil
  | tidIsExist
  | conflictWithSibling (tid : Nat)
  | keyNotFound
deriving DecidableEq, Repr

/-- One call issued to the durable backend storage (put or delete).  The
value of a put is an `Option Val` because Go can pass a nil byte slice. -/
inductive BOp where
  | put (key : Key) (val : Option Val)
  | del (key : Key)
deriving DecidableEq, Repr

/-- The durable backend: a byte key-value store.  A stored value may be a
nil byte slice, hence `Option Val`. -/
structure Backend where
  data : List (Key × Option Val)
deriving DecidableEq, Repr

/-- Backend Get: the stored value, or the KeyNotFound sentinel. -/
def Backend.get (b : Backend) (k : Key) : Except Err (Option Val) :=
  match b.data.find? (fun p => p.1 == k) with
  | some p => .ok p.2
  | none => .error .keyNotFound

/-- Backend Put: store (insert or overwrite) the value under the key. -/
def Backend.put (b : Backend) (k : Key) (v : Option Val) : Backend :=
  Backend.mk ((k, v) :: b.data.filter (fun p => p.1 != k))

/-- Backend Del: remove the key. -/
def Backend.del (b : Backend) (k : Key) : Backend :=
  Backend.mk (b.data.filter (fun p => p.1 != k))

/-- Read-through view of the backend used by the staging table: a found
value (possibly nil bytes), with KeyNotFound expressed as none. -/
def Backend.read (b : Backend) (k : Key) : Option Val :=
  match b.get k with
  | .ok v => v
  | .error _ => none

/-- Apply one backend call. -/
def Backend.applyOp : Backend → BOp → Backend
  | b, .put k v => b.put k v
  | b, .del k => b.del k

/-- Apply a list of backend calls left to right. -/
def Backend.applyOps (b : Backend) (ops : List BOp) : Backend :=
  ops.foldl Backend.applyOp b

/-- The versionized value, the per-key record of a staging table (spec
section 3; its Go struct is used field by field in mvccdb.go Commit and
Get). -/
structure VValue where
  key : Key
  val : Option Val
  ownerTid : Nat
  deleted : Bool
  dirty : Bool
  isDefault : Bool
  version : Nat
  oldVal : Option Val
deriving DecidableEq, Repr

/-- A staging table: owner transaction identity plus the per-key records in
insertion order (spec section 3). -/
structure STable where
  ownerTid : Nat
  entries : List VValue
deriving DecidableEq, Repr

/-- The record a staging table currently holds for a key, if any. -/
def STable.findRec (t : STable) (k : Key) : Option VValue :=
  t.entries.find? (fun v => v.key == k)

/-- Insert a record, or replace the record already held for its key. -/
def STable.upsert (t : STable) (v : VValue) : STable :=
  if t.entries.any (fun w => w.key == v.key) then
    STable.mk t.ownerTid (t.entries.map (fun w => if w.key == v.key then v else w))
  else
    STable.mk t.ownerTid (t.entries ++ [v])

/-- Modelled from the spec: StagingTable.get (section 4.2), whose Go source
(staging_table.go) is not among the repository files.  If the table already
holds a record for the key it is returned; otherwise the key is read
through the parent chain or backend (the readThrough argument, none meaning
KeyNotFound) and a default record is materialized and inserted. -/
def STable.GetOp (t : STable) (readThrough : Key → Option Val) (k : Key) :
    VValue × STable :=
  match t.findRec k with
  | some v => (v, t)
  | none =>
    let found := readThrough k
    let v : VValue := VValue.mk k found t.ownerTid false false true 0 found
    (v, STable.mk t.ownerTid (t.entries ++ [v]))

/-- Modelled from the spec: StagingTable.put (section 4.2).  Fetch via get
to capture the pre-image; a default record is upgraded (old_val becomes the
value at entry, version 1), a non-default record is mutated in place with
its version incremented. -/
def STable.PutOp (t : STable) (readThrough : Key → Option Val) (k : Key)
    (newVal : Val) : VValue × STable :=
  let r := t.GetOp readThrough k
  let v := r.1
  if v.isDefault then
    let v2 : VValue := VValue.mk k (some newVal) v.ownerTid false true false 1 v.val
    (v2, r.2.upsert v2)
  else
    let v2 : VValue :=
      VValue.mk k (some newVal) v.ownerTid false true v.isDefault (v.version + 1) v.oldVal
    (v2, r.2.upsert v2)

/-- Modelled from the spec: StagingTable.del (section 4.2), the tombstone
counterpart of put (deleted set, val absent). -/
def STable.DelOp (t : STable) (readThrough : Key → Option Val) (k : Key) :
    VValue × STable :=
  let r := t.GetOp readThrough k
  let v := r.1
  if v.isDefault then
    let v2 : VValue := VValue.mk k none v.ownerTid true true false 1 v.val
    (v2, r.2.upsert v2)
  else
    let v2 : VValue :=
      VValue.mk k none v.ownerTid true true v.isDefault (v.version + 1) v.oldVal
    (v2, r.2.upsert v2)

/-- The MVCCDB of mvccdb.go (lines 48-58): transaction identity, the flags
isInTransaction / isPreparedDB / isDirtyDB, the staging table, and the
registry of prepared child DBs.  The registry preserves registration
order. -/
inductive MVCCDB : Type where
  | mk (tid : Option Nat) (isInTransaction isPreparedDB isDirtyDB : Bool)
       (staging : STable) (preparedDBs : List MVCCDB)

/-- Transaction identity of a DB. -/
def MVCCDB.tid : MVCCDB → Option Nat
  | .mk t _ _ _ _ _ => t

/-- The isInTransaction flag. -/
def MVCCDB.isInTransaction : MVCCDB → Bool
  | .mk _ b _ _ _ _ => b

/-- The isPreparedDB flag. -/
def MVCCDB.isPreparedDB : MVCCDB → Bool
  | .mk _ _ b _ _ _ => b

/-- The isDirtyDB flag. -/
def MVCCDB.isDirtyDB : MVCCDB → Bool
  | .mk _ _ _ b _ _ => b

/-- The DB staging table. -/
def MVCCDB.staging : MVCCDB → STable
  | .mk _ _ _ _ s _ => s

/-- The registered prepared child DBs. -/
def MVCCDB.preparedDBs : MVCCDB → List MVCCDB
  | .mk _ _ _ _ _ c => c

mutual
/-- IsPreparedDBDirty exactly as coded in mvccdb.go lines 304-312: it
recurses into every registered prepared DB but never reads any isDirtyDB
flag, and its base case is false. -/
def MVCCDB.IsPreparedDBDirty : MVCCDB → Bool
  | .mk _ _ _ _ _ children => MVCCDB.anyPreparedDirty children

/-- The loop of IsPreparedDBDirty over the child registry. -/
def MVCCDB.anyPreparedDirty : List MVCCDB → Bool
  | [] => false
  | pdb :: rest => pdb.IsPreparedDBDirty || MVCCDB.anyPreparedDirty rest
end

mutual
/-- The property the spec states for is_prepared_dirty: some transitive
prepared descendant has its is_dirty flag set. -/
def MVCCDB.specPreparedDirty : MVCCDB → Bool
  | .mk _ _ _ _ _ children => MVCCDB.anySpecDirty children

/-- Helper of specPreparedDirty: some DB in the list, or below one, is
dirty. -/
def MVCCDB.anySpecDirty : List MVCCDB → Bool
  | [] => false
  | c :: rest => (c.isDirtyDB || c.specPreparedDirty) || MVCCDB.anySpecDirty rest
end

/-- Begin, as coded in mvccdb.go lines 80-95: the nested-transaction check
comes first, the prepared-DB check second. -/
def MVCCDB.BeginOp : MVCCDB → Except Err Unit × MVCCDB
  | .mk t it ip d s c =>
    if it then (.error .nestedTransaction, .mk t it ip d s c)
    else if ip then (.error .preparedBegin, .mk t it ip d s c)
    else (.ok (), .mk t true ip d s c)

/-- The backend calls Commit issues while walking the staging-table records
(mvccdb.go lines 118-133): default records and non-dirty records are
skipped; a deleted record becomes a backend delete, any other a backend
put. -/
def flushOps (vals : List VValue) : List BOp :=
  vals.filterMap (fun v =>
    if v.isDefault then none
    else if !v.dirty then none
    else if v.deleted then some (.del v.key)
    else some (.put v.key v.val))

/-- Set the isInTransaction and isDirtyDB flags. -/
def MVCCDB.withFlags : MVCCDB → Bool → Bool → MVCCDB
  | .mk t _ ip _ s c, it, d => .mk t it ip d s c

/-- Commit, as coded in mvccdb.go lines 98-140: guard checks (transaction
started, not prepared, IsPreparedDBDirty), then the flush of the staging
records, then both flags cleared.  The result carries the DB, the backend
after the flush, and the exact list of backend calls issued. -/
def MVCCDB.Commit (db : MVCCDB) (backend : Backend) :
    Except Err Unit × MVCCDB × Backend × List BOp :=
  if !db.isInTransaction then (.error .transactionNotStarted, db, backend, [])
  else if db.isPreparedDB then (.error .preparedCommit, db, backend, [])
  else if db.IsPreparedDBDirty then (.error .preparedDBIsDirty, db, backend, [])
  else
    let ops := flushOps db.staging.entries
    (.ok (), db.withFlags false false, backend.applyOps ops, ops)

/-- Replace the staging table of a DB. -/
def MVCCDB.withStaging : MVCCDB → STable → MVCCDB
  | .mk t it ip d _ c, s => .mk t it ip d s c

/-- Set the isDirtyDB flag. -/
def MVCCDB.withIsDirty : MVCCDB → Bool → MVCCDB
  | .mk t it ip _ s c, d => .mk t it ip d s c

/-- Get, as coded in mvccdb.go lines 170-188: outside a transaction a pure
backend passthrough; inside, the staging-table get, with KeyNotFound
signalled when the record is deleted or its val is nil, and the val
returned otherwise. -/
def MVCCDB.GetOp (db : MVCCDB) (backend : Backend) (key : Key) :
    Except Err (Option Val) × MVCCDB :=
  if !db.isInTransaction then (backend.get key, db)
  else
    let r := db.staging.GetOp backend.read key
    if r.1.deleted || r.1.val.isNone then (.error .keyNotFound, db.withStaging r.2)
    else (.ok r.1.val, db.withStaging r.2)

/-- Put, as coded in mvccdb.go lines 191-204: outside a transaction a pure
backend passthrough; inside, the staging-table put, and on its success the
isDirtyDB flag is set.  The last component lists the backend calls
issued. -/
def MVCCDB.PutOp (db : MVCCDB) (backend : Backend) (key : Key) (val : Val) :
    Except Err Unit × MVCCDB × Backend × List BOp :=
  if !db.isInTransaction then
    (.ok (), db, backend.put key (some val), [.put key (some val)])
  else
    let r := db.staging.PutOp backend.read key val
    (.ok (), (db.withStaging r.2).withIsDirty true, backend, [])

/-- Del, as coded in mvccdb.go lines 207-220: outside a transaction a pure
backend passthrough; inside, the staging-table del, and on its success the
isDirtyDB flag is set. -/
def MVCCDB.DelOp (db : MVCCDB) (backend : Backend) (key : Key) :
    Except Err Unit × MVCCDB × Backend × List BOp :=
  if !db.isInTransaction then
    (.ok (), db, backend.del key, [.del key])
  else
    let r := db.staging.DelOp backend.read key
    (.ok (), (db.withStaging r.2).withIsDirty true, backend, [])

/-- Append a prepared child to the registry. -/
def MVCCDB.withChildren : MVCCDB → List MVCCDB → MVCCDB
  | .mk t it ip d s _, c => .mk t it ip d s c

/-- Prepare, as coded in mvccdb.go lines 223-257: guards (transaction
started, tid not nil, tid not registered), then a fresh child staging table
(Modelled from the spec, staging_table.go being absent: prepare creates an
empty child table owned by the tid) wrapped in a child DB with
isInTransaction and isPreparedDB set, registered under its tid. -/
def MVCCDB.PrepareOp (db : MVCCDB) (t : Option Nat) :
    Except Err MVCCDB × MVCCDB :=
  if !db.isInTransaction then (.error .transactionNotStarted, db)
  else if t.isNone then (.error .tidIsNil, db)
  else if db.preparedDBs.any (fun c => c.tid == t) then (.error .tidIsExist, db)
  else
    let childTable : STable := STable.mk (t.getD 0) []
    let child : MVCCDB := .mk t true true false childTable []
    (.ok child, db.withChildren (db.preparedDBs ++ [child]))

mutual
/-- Modelled from the spec: StagingTable.purge (section 4.2), whose Go
source is absent: it clears all entries of the table and recursively purges
the children tables without removing them.  On the DB tree this empties
every staging table at or below the node, touching no flag. -/
def MVCCDB.purgeAll : MVCCDB → MVCCDB
  | .mk t it ip d s cs => .mk t it ip d (STable.mk s.ownerTid []) (MVCCDB.purgeChildren cs)

/-- Recursive purge over the child registry. -/
def MVCCDB.purgeChildren : List MVCCDB → List MVCCDB
  | [] => []
  | c :: rest => c.purgeAll :: MVCCDB.purgeChildren rest
end

mutual
/-- Reset, as coded in mvccdb.go lines 282-302: guards (transaction
started, prepared DB), then every registered child is reset in turn, the
staging table is purged (recursively, per the spec model of purge), and the
isDirtyDB flag is cleared. -/
def MVCCDB.ResetOp : MVCCDB → Except Err Unit × MVCCDB
  | .mk t it ip d s cs =>
    if !it then (.error .transactionNotStarted, .mk t it ip d s cs)
    else if !ip then (.error .notPreparedDB, .mk t it ip d s cs)
    else
      (.ok (), ((MVCCDB.mk t it ip d s (MVCCDB.resetEach cs)).purgeAll).withIsDirty false)

/-- The loop of RollBack and Reset over the child registry: each child is
reset, its error (if any) discarded, exactly as the Go range loop does. -/
def MVCCDB.resetEach : List MVCCDB → List MVCCDB
  | [] => []
  | c :: rest => (MVCCDB.ResetOp c).2 :: MVCCDB.resetEach rest
end

/-- RollBack, as coded in mvccdb.go lines 143-167: guards (transaction
started, not a prepared DB), then every registered prepared child is
reset, the root staging table is purged, and both flags are cleared.  No
backend call is issued: the backend is returned as given and the call
trace is empty. -/
def MVCCDB.RollBack (db : MVCCDB) (backend : Backend) :
    Except Err Unit × MVCCDB × Backend × List BOp :=
  match db with
  | .mk t it ip d s cs =>
    if !it then (.error .transactionNotStarted, .mk t it ip d s cs, backend, [])
    else if ip then (.error .preparedRollback, .mk t it ip d s cs, backend, [])
    else
      (.ok (), (MVCCDB.mk t false ip false s (MVCCDB.resetEach cs)).purgeAll, backend, [])

mutual
/-- Well-formed prepared subtree: the DB and every DB below it carries the
flags Prepare gives a child (isInTransaction and isPreparedDB set), so that
Reset on it cannot fail.  Every child registered by Prepare satisfies
this. -/
def MVCCDB.wfPrepared : MVCCDB → Bool
  | .mk _ it ip _ _ cs => it && ip && MVCCDB.allWfPrepared cs

/-- All DBs of the list are well-formed prepared subtrees. -/
def MVCCDB.allWfPrepared : List MVCCDB → Bool
  | [] => true
  | c :: rest => c.wfPrepared && MVCCDB.allWfPrepared rest
end

mutual
/-- No isDirtyDB flag is set at or below the node. -/
def MVCCDB.dirtyFree : MVCCDB → Bool
  | .mk _ _ _ d _ cs => !d && MVCCDB.allDirtyFree cs

/-- No isDirtyDB flag is set in or below any DB of the list. -/
def MVCCDB.allDirtyFree : List MVCCDB → Bool
  | [] => true
  | c :: rest => c.dirtyFree && MVCCDB.allDirtyFree rest
end

mutual
/-- Every staging table at or below the node is empty. -/
def MVCCDB.stagingFree : MVCCDB → Bool
  | .mk _ _ _ _ s cs => s.entries.isEmpty && MVCCDB.allStagingFree cs

/-- Every staging table in or below any DB of the list is empty. -/
def MVCCDB.allStagingFree : List MVCCDB → Bool
  | [] => true
  | c :: rest => c.stagingFree && MVCCDB.allStagingFree rest
end

/-- A fully reset subtree: no dirty flag and no staging entry anywhere. -/
def MVCCDB.cleanTree (db : MVCCDB) : Bool :=
  db.dirtyFree && db.stagingFree

/-- All DBs of the list are fully reset subtrees. -/
def MVCCDB.allCleanTree (l : List MVCCDB) : Bool :=
  MVCCDB.allDirtyFree l && MVCCDB.allStagingFree l

/-- Modelled from the spec: the conflict test (a) of merge_to_parent
(section 4.2), whose Go source is absent.  For one child record: the
parent(s) current record for the key, when it exists, is dirty, its owner
is outside our ancestor chain, and its val disagrees with the old_val the
child captured, names the sibling owner as a conflict. -/
def staleConflict (parent : STable) (ancestors : List Nat) (r : VValue) : Option Nat :=
  match parent.findRec r.key with
  | some p =>
    if p.dirty && !(ancestors.contains p.ownerTid) && !(p.val == r.oldVal)
    then some p.ownerTid else none
  | none => none

/-- The first conflicting record of the child, in insertion order. -/
def firstConflict (parent : STable) (ancestors : List Nat) : List VValue → Option Nat
  | [] => none
  | r :: rest =>
    match staleConflict parent ancestors r with
    | some t => some t
    | none => firstConflict parent ancestors rest

/-- Modelled from the spec: the record step (b) of merge_to_parent writes
into the parent: owner becomes the parent, val and deleted are preserved,
dirty is set, default cleared, old_val is the parent prior val, version is
the parent prior version plus one. -/
def mergeRecord (parentTid : Nat) (prior : Option VValue) (r : VValue) : VValue :=
  VValue.mk r.key r.val parentTid r.deleted true false
    ((match prior with | some p => p.version | none => 0) + 1)
    (match prior with | some p => p.val | none => none)

/-- Modelled from the spec: the write-propagation loop of merge_to_parent.
Pure reads (dirty never set) are skipped; each dirty child record is copied
into the parent, and the owners of overwritten dirty parent records are
collected once each, in first-encounter order. -/
def mergeApply (parentTid : Nat) : STable → List Nat → List VValue → STable × List Nat
  | acc, tids, [] => (acc, tids)
  | acc, tids, r :: rest =>
    if r.dirty then
      let prior := acc.findRec r.key
      let tids2 :=
        match prior with
        | some p =>
          if p.dirty && !(tids.contains p.ownerTid) then tids ++ [p.ownerTid] else tids
        | none => tids
      mergeApply parentTid (acc.upsert (mergeRecord parentTid prior r)) tids2 rest
    else mergeApply parentTid acc tids rest

/-- Modelled from the spec: merge_to_parent (section 4.2), whose Go source
is absent (mvccdb.go CheckAndUpdate calls it).  All conflict checks run
first over every child record in insertion order; on a conflict the merge
fails with ConflictWithSibling and both tables are returned unchanged; on
success the dirty records are propagated, the overwritten sibling tids are
reported, and the child table is purged. -/
def MergeToParent (child parent : STable) (ancestors : List Nat) :
    Except Err (List Nat) × STable × STable :=
  match firstConflict parent ancestors child.entries with
  | some t => (.error (.conflictWithSibling t), child, parent)
  | none =>
    let r := mergeApply parent.ownerTid parent [] child.entries
    (.ok r.2, STable.mk child.ownerTid [], r.1)

/-- CheckAndUpdate, as coded in mvccdb.go lines 260-279: guards
(transaction started, prepared DB), the staging-table merge, and on merge
success the isDirtyDB flag cleared.  The merge itself is the spec-modelled
MergeToParent above, so the child staging table, parent staging table and
ancestor chain are passed explicitly. -/
def MVCCDB.CheckAndUpdate (db : MVCCDB) (parentTable : STable)
    (ancestors : List Nat) :
    Except Err (List Nat) × MVCCDB × STable :=
  if !db.isInTransaction then (.error .transactionNotStarted, db, parentTable)
  else if !db.isPreparedDB then (.error .notPreparedDB, db, parentTable)
  else
    let r := MergeToParent db.staging parentTable ancestors
    match r.1 with
    | .error e => (.error e, (db.withStaging r.2.1), r.2.2)
    | .ok tids => (.ok tids, (db.withStaging r.2.1).withIsDirty false, r.2.2)

namespace trie

/-- The operation kinds of the batch trie changelog (trie source file,
lines 18-27). -/
inductive Action where
  | insert
  | update
  | delete
  | get
deriving DecidableEq, Repr

/-- A changelog and oplog entry of the batch trie: action, key, old value,
new value (trie source file, lines 29-35).  The old and update fields are
nil-able byte strings. -/
structure Entry where
  action : Action
  key : Key
  old : Option Val
  update : Option Val
deriving DecidableEq, Repr

/-- A Go map from (hex of a) key to an entry: none models a nil map, some
an allocated map as an association list in insertion order.  Hex encoding
is injective, so keys are used directly. -/
abbrev OpLog := Option (List (Key × Entry))

/-- Go map read: reading a nil map yields missing (no panic). -/
def oplogFind (m : OpLog) (k : Key) : Option Entry :=
  match m with
  | none => none
  | some l => (l.find? (fun p => p.1 == k)).map Prod.snd

/-- Go map assignment: assigning into a nil map panics (modelled as the
error of the Except); otherwise insert or overwrite. -/
def oplogAssign (m : OpLog) (k : Key) (e : Entry) : Except Unit OpLog :=
  match m with
  | none => .error ()
  | some l =>
    if l.any (fun p => p.1 == k) then
      .ok (some (l.map (fun p => if p.1 == k then (k, e) else p)))
    else
      .ok (some (l ++ [(k, e)]))

/-- The in-memory trie contents: key to (possibly nil) value. -/
abbrev TrieMap := List (Key × Option Val)

/-- Trie Get: the stored value if the key exists. -/
def trieGet (t : TrieMap) (k : Key) : Option (Option Val) :=
  (t.find? (fun p => p.1 == k)).map Prod.snd

/-- Trie Put: insert or overwrite. -/
def triePut (t : TrieMap) (k : Key) (v : Option Val) : TrieMap :=
  if t.any (fun p => p.1 == k) then t.map (fun p => if p.1 == k then (k, v) else p)
  else t ++ [(k, v)]

/-- Trie Del: remove the key. -/
def trieDel (t : TrieMap) (k : Key) : TrieMap :=
  t.filter (fun p => p.1 != k)

/-- The BatchTrie of the trie source file (lines 37-44): the trie, the
changelog of the running batch, the batching flag, and the two oplog maps.
The trie itself is modelled as an in-memory map with total put and del. -/
structure BatchTrie where
  trie : TrieMap
  changelog : List Entry
  batching : Bool
  initialoplog : OpLog
  finaloplog : OpLog
deriving DecidableEq, Repr

/-- BatchTrie.Get, as coded in the trie source file lines 72-85: read the
trie, build a Get entry, insert it into initialoplog only if the key is
absent there, and write it into finaloplog (the guard there is always true
for a Get entry).  Either map being nil makes the required assignment
panic.  The ok result is the trie lookup (none standing for the
KeyNotFound error) paired with the new state. -/
def BatchTrie.GetOp (bt : BatchTrie) (k : Key) :
    Except Unit (Option (Option Val) × BatchTrie) :=
  let got := trieGet bt.trie k
  let val : Option Val := match got with | some v => v | none => none
  let entry : Entry := Entry.mk .get k val val
  match (if (oplogFind bt.initialoplog k).isSome then .ok bt.initialoplog
         else oplogAssign bt.initialoplog k entry : Except Unit OpLog) with
  | .error u => .error u
  | .ok io =>
    let ok0 := (oplogFind bt.finaloplog k).isSome
    if !ok0 || (ok0 && entry.action == Action.get) then
      match oplogAssign bt.finaloplog k entry with
      | .error u => .error u
      | .ok fo => .ok (got, BatchTrie.mk bt.trie bt.changelog bt.batching io fo)
    else
      .ok (got, BatchTrie.mk bt.trie bt.changelog bt.batching io bt.finaloplog)

/-- BatchTrie.Put, as coded in the trie source file lines 89-111: build an
Update entry (Insert when the key is absent, with the old value captured
otherwise), write the trie, insert the entry into initialoplog only if the
key is absent there, overwrite it in finaloplog, and append to the
changelog when batching.  Either map being nil makes the required
assignment panic. -/
def BatchTrie.PutOp (bt : BatchTrie) (k : Key) (v : Val) :
    Except Unit BatchTrie :=
  let got := trieGet bt.trie k
  let entry : Entry :=
    match got with
    | none => Entry.mk .insert k none (some v)
    | some o => Entry.mk .update k o (some v)
  let tr2 := triePut bt.trie k (some v)
  match (if (oplogFind bt.initialoplog k).isSome then .ok bt.initialoplog
         else oplogAssign bt.initialoplog k entry : Except Unit OpLog) with
  | .error u => .error u
  | .ok io =>
    match oplogAssign bt.finaloplog k entry with
    | .error u => .error u
    | .ok fo =>
      let cl := if bt.batching then bt.changelog ++ [entry] else bt.changelog
      .ok (BatchTrie.mk tr2 cl bt.batching io fo)

/-- BatchTrie.Del, as coded in the trie source file lines 115-135: build a
Delete entry capturing the old value when present, delete from the trie,
insert into initialoplog only if absent, overwrite finaloplog, append to
the changelog when batching.  Either map being nil makes the required
assignment panic. -/
def BatchTrie.DelOp (bt : BatchTrie) (k : Key) : Except Unit BatchTrie :=
  let got := trieGet bt.trie k
  let entry : Entry :=
    match got with
    | none => Entry.mk .delete k none none
    | some o => Entry.mk .delete k o none
  let tr2 := trieDel bt.trie k
  match (if (oplogFind bt.initialoplog k).isSome then .ok bt.initialoplog
         else oplogAssign bt.initialoplog k entry : Except Unit OpLog) with
  | .error u => .error u
  | .ok io =>
    match oplogAssign bt.finaloplog k entry with
    | .error u => .error u
    | .ok fo =>
      let cl := if bt.batching then bt.changelog ++ [entry] else bt.changelog
      .ok (BatchTrie.mk tr2 cl bt.batching io fo)

/-- The changelog compression of BatchTrie.RollBack (trie source lines
204-209): keep the first entry per key.  The Go code builds a map and then
iterates it in unspecified order; the kept entries have distinct keys, so
the replay below fixes first-occurrence order. -/
def compressChangelog (seen : List Key) : List Entry → List Entry
  | [] => []
  | e :: rest =>
    if seen.contains e.key then compressChangelog seen rest
    else e :: compressChangelog (seen ++ [e.key]) rest

/-- One replayed undo of BatchTrie.RollBack (trie source lines 217-224):
an Insert is undone by a trie delete, an Update or Delete by putting the
recorded old value back; a Get entry has no case. -/
def rollbackStep (t : TrieMap) (e : Entry) : TrieMap :=
  match e.action with
  | .insert => trieDel t e.key
  | .update => triePut t e.key e.old
  | .delete => triePut t e.key e.old
  | .get => t

/-- BatchTrie.RollBack, as coded in the trie source file lines 202-226:
compress the changelog to first entries per key, clear the changelog, set
both oplog maps to nil, replay the undos against the trie, and clear the
batching flag. -/
def BatchTrie.RollBackOp (bt : BatchTrie) : BatchTrie :=
  let compressed := compressChangelog [] bt.changelog
  BatchTrie.mk (compressed.foldl rollbackStep bt.trie) [] false none none

/-- Go bytes.Equal on nil-able byte strings: nil compares equal to the
empty string. -/
def bytesEqual (a b : Option Val) : Bool :=
  a.getD "" == b.getD ""

/-- The first loop of BatchTrie.MergeWith (trie source lines 284-294),
iterating the initial oplog of the incoming trie.  The local variable
initialoplog of the Go code is the same map object as bt.initialoplog, so
the insertions it performs mutate bt; the threaded OpLog argument models
that shared map.  A conflict (an entry of bt.finaloplog for the same key
whose update disagrees with the incoming old value) stops the loop with
false, keeping whatever insertions already happened. -/
def mergeCheckLoop (btFinal : OpLog) : OpLog → List (Key × Entry) →
    Except Unit (Bool × OpLog)
  | btInit, [] => .ok (true, btInit)
  | btInit, (_, toentry) :: rest =>
    let conflict :=
      match oplogFind btFinal toentry.key with
      | some entry => !(bytesEqual toentry.old entry.update)
      | none => false
    if conflict then .ok (false, btInit)
    else if (oplogFind btInit toentry.key).isSome then
      mergeCheckLoop btFinal btInit rest
    else
      match oplogAssign btInit toentry.key toentry with
      | .error u => .error u
      | .ok io2 => mergeCheckLoop btFinal io2 rest

/-- The second loop of BatchTrie.MergeWith (trie source lines 305-318),
iterating the final oplog of the incoming trie against the cloned trie and
the two maps (which are the same objects as bt.initialoplog and
bt.finaloplog).  Delete entries delete from the trie and land in the final
oplog, Update and Insert entries put and land in the final oplog, Get
entries land in the initial oplog (their guard is always true). -/
def mergeApplyLoop : TrieMap × OpLog × OpLog → List (Key × Entry) →
    Except Unit (TrieMap × OpLog × OpLog)
  | st, [] => .ok st
  | (tr, fo, io), (_, entry) :: rest =>
    match entry.action with
    | .delete =>
      match oplogAssign fo entry.key entry with
      | .error u => .error u
      | .ok fo2 => mergeApplyLoop (trieDel tr entry.key, fo2, io) rest
    | .update =>
      match oplogAssign fo entry.key entry with
      | .error u => .error u
      | .ok fo2 => mergeApplyLoop (triePut tr entry.key entry.update, fo2, io) rest
    | .insert =>
      match oplogAssign fo entry.key entry with
      | .error u => .error u
      | .ok fo2 => mergeApplyLoop (triePut tr entry.key entry.update, fo2, io) rest
    | .get =>
      let ok0 := (oplogFind io entry.key).isSome
      if !ok0 || (ok0 && entry.action == Action.get) then
        match oplogAssign io entry.key entry with
        | .error u => .error u
        | .ok io2 => mergeApplyLoop (tr, fo, io2) rest
      else
        mergeApplyLoop (tr, fo, io) rest

/-- BatchTrie.MergeWith, as coded in the trie source file lines 278-321.
The result carries the success flag, the new merged trie when successful
(nil otherwise), and the receiver bt as the call leaves it: because the
local initialoplog aliases bt.initialoplog and the clone is given
bt.finaloplog itself, the loops mutate bt even when the merge fails.  The
incoming tobt is only read.  Iteration over the Go maps is modelled in
insertion order (Go map order is unspecified). -/
def BatchTrie.MergeWith (bt tobt : BatchTrie) :
    Except Unit (Bool × Option BatchTrie × BatchTrie) :=
  match mergeCheckLoop bt.finaloplog bt.initialoplog (tobt.initialoplog.getD []) with
  | .error u => .error u
  | .ok (false, io) =>
    .ok (false, none, BatchTrie.mk bt.trie bt.changelog bt.batching io bt.finaloplog)
  | .ok (true, io) =>
    match mergeApplyLoop (bt.trie, bt.finaloplog, io) (tobt.finaloplog.getD []) with
    | .error u => .error u
    | .ok (tr2, fo2, io2) =>
      .ok (true,
        some (BatchTrie.mk tr2 bt.changelog bt.batching io2 fo2),
        BatchTrie.mk bt.trie bt.changelog bt.batching io2 fo2)

end trie

/-- A prepared child DB with its is_dirty flag set, exactly as a child
looks after a successful Put (Prepare gives it isInTransaction and
isPreparedDB; Put sets isDirtyDB). -/
def exChildDirty : MVCCDB :=
  .mk (some 1) true true true (STable.mk 1 []) []

/-- A root DB inside a transaction whose registered prepared child is
dirty. -/
def exRootDirtyChild : MVCCDB :=
  .mk (some 0) true false false (STable.mk 0 []) [exChildDirty]

/-- A root DB inside a transaction with one dirty staging record and a
dirty prepared child. -/
def exRootCommit : MVCCDB :=
  .mk (some 0) true false false
    (STable.mk 0 [VValue.mk "k" (some "v") 0 false true false 1 none])
    [exChildDirty]

/-- The empty backend. -/
def exBackendEmpty : Backend := Backend.mk []

/-- A backend holding one key. -/
def exBackendC : Backend := Backend.mk [("c", some "x")]

/-- A root DB inside a transaction whose staging table holds a dirty put, a
default read record, and a dirty tombstone. -/
def exCommitDB : MVCCDB :=
  .mk (some 0) true false false
    (STable.mk 0
      [VValue.mk "a" (some "1") 0 false true false 1 none,
       VValue.mk "b" (some "2") 0 false false true 0 (some "2"),
       VValue.mk "c" none 0 true true false 2 (some "x")])
    []

/-- A root DB outside any transaction. -/
def exIdleDB : MVCCDB :=
  .mk (some 0) false false false (STable.mk 0 []) []

/-- A root DB inside a transaction with one dirty staging record. -/
def exTxnDB : MVCCDB :=
  .mk (some 0) true false false
    (STable.mk 0 [VValue.mk "k" (some "v") 0 false true false 1 none]) []

/-- A root DB inside a transaction with no staging record and no child. -/
def rootInTxnDB : MVCCDB :=
  .mk (some 0) true false false (STable.mk 0 []) []

/-- The prepared child DB that Prepare(1) on rootInTxnDB returns. -/
def preparedChildDB : MVCCDB :=
  .mk (some 1) true true false (STable.mk 1 []) []

/-- A batch trie whose final oplog holds an update of k2 to v1 (its own
last write), with an allocated empty initial oplog. -/
def exMergeBT : trie.BatchTrie :=
  trie.BatchTrie.mk [] [] false (some [])
    (some [("k2", trie.Entry.mk .update "k2" none (some "v1"))])

/-- An incoming batch trie that first read k1 (absent) and then read k2 as
v0, disagreeing with exMergeBT, which last wrote v1 there. -/
def exMergeToBT : trie.BatchTrie :=
  trie.BatchTrie.mk [] [] false
    (some [("k1", trie.Entry.mk .get "k1" none none),
           ("k2", trie.Entry.mk .get "k2" (some "v0") (some "v0"))])
    (some [])

mutual
/-- IsPreparedDBDirty as coded returns false on every DB: its recursion
never reads an isDirtyDB flag and bottoms out at false. -/
theorem MVCCDB.isPreparedDBDirty_eq_false :
    ∀ db : MVCCDB, db.IsPreparedDBDirty = false
  | .mk _ _ _ _ _ children => by
    simp [MVCCDB.IsPreparedDBDirty, MVCCDB.anyPreparedDirty_eq_false children]

/-- List form of isPreparedDBDirty_eq_false. -/
theorem MVCCDB.anyPreparedDirty_eq_false :
    ∀ l : List MVCCDB, MVCCDB.anyPreparedDirty l = false
  | [] => by simp [MVCCDB.anyPreparedDirty]
  | c :: rest => by
    simp [MVCCDB.anyPreparedDirty, MVCCDB.isPreparedDBDirty_eq_false c,
      MVCCDB.anyPreparedDirty_eq_false rest]
end

/-- C1: the spec states that is_prepared_dirty() is true exactly when some
transitive prepared descendant has its is_dirty flag set.  The code
(mvccdb.go lines 304-312) only recurses over the child registry and never
reads any isDirtyDB flag, so IsPreparedDBDirty is constantly false; on a
root whose prepared child has is_dirty = true it answers false where the
claim requires true. -/
theorem c1_isPreparedDBDirty_never_true :
    (∀ db : MVCCDB, db.IsPreparedDBDirty = false) ∧
    exRootDirtyChild.specPreparedDirty = true ∧
    exRootDirtyChild.IsPreparedDBDirty = false :=
  ⟨MVCCDB.isPreparedDBDirty_eq_false, rfl, rfl⟩

/-- C2: the spec states that commit fails with PreparedDBIsDirty exactly
when a prepared descendant is still dirty, with the backend untouched on
that failure.  Because IsPreparedDBDirty is constantly false (mvccdb.go
lines 304-312), Commit on a root with a dirty prepared child succeeds and
flushes to the backend instead of failing. -/
theorem c2_commit_ignores_dirty_children :
    exRootCommit.specPreparedDirty = true ∧
    (exRootCommit.Commit exBackendEmpty).1 = .ok () ∧
    (exRootCommit.Commit exBackendEmpty).2.2.2 = [BOp.put "k" (some "v")] ∧
    (exRootCommit.Commit exBackendEmpty).2.2.1 ≠ exBackendEmpty :=
  ⟨rfl, rfl, rfl, by decide⟩

/-- One step of the flush trace: the head record contributes its one call
when it is non-default and dirty, and nothing otherwise. -/
theorem flushOps_cons (v : VValue) (rest : List VValue) :
    flushOps (v :: rest) =
      (if !v.isDefault && v.dirty then
        [if v.deleted then BOp.del v.key else BOp.put v.key v.val] else []) ++
      flushOps rest := by
  cases hdf : v.isDefault <;> cases hdr : v.dirty <;> cases hdel : v.deleted <;>
    simp [flushOps, List.filterMap_cons, hdf, hdr, hdel]

/-- The flush trace is the non-default dirty records, in table order, each
mapped to a delete (tombstone) or a put. -/
theorem flushOps_eq_filter_map (l : List VValue) :
    flushOps l = (l.filter (fun v => !v.isDefault && v.dirty)).map
      (fun v => if v.deleted then BOp.del v.key else BOp.put v.key v.val) := by
  induction l with
  | nil => rfl
  | cons v rest ih =>
    rw [flushOps_cons, List.filter_cons, ih]
    cases hdf : v.isDefault <;> cases hdr : v.dirty <;> simp [hdf, hdr]

/-- The withFlags setter only writes the two flags. -/
theorem MVCCDB.withFlags_isInTransaction (db : MVCCDB) (a b : Bool) :
    (db.withFlags a b).isInTransaction = a := by
  cases db
  rfl

/-- The withFlags setter writes the isDirtyDB flag. -/
theorem MVCCDB.withFlags_isDirtyDB (db : MVCCDB) (a b : Bool) :
    (db.withFlags a b).isDirtyDB = b := by
  cases db
  rfl

/-- C5: on a successful root commit exactly the staging records with
default = false and dirty = true are flushed, a backend delete for each
tombstone and a backend put otherwise, in table order; the backend receives
exactly those calls, and afterwards in_transaction and is_dirty are
false. -/
theorem c5_commit_flushes_exactly_dirty (db : MVCCDB) (backend : Backend)
    (h1 : db.isInTransaction = true) (h2 : db.isPreparedDB = false) :
    (db.Commit backend).1 = .ok () ∧
    (db.Commit backend).2.2.2 =
      (db.staging.entries.filter (fun v => !v.isDefault && v.dirty)).map
        (fun v => if v.deleted then BOp.del v.key else BOp.put v.key v.val) ∧
    (db.Commit backend).2.2.1 = backend.applyOps ((db.Commit backend).2.2.2) ∧
    (db.Commit backend).2.1.isInTransaction = false ∧
    (db.Commit backend).2.1.isDirtyDB = false := by
  unfold MVCCDB.Commit
  simp [h1, h2, MVCCDB.isPreparedDBDirty_eq_false db, flushOps_eq_filter_map,
    MVCCDB.withFlags_isInTransaction, MVCCDB.withFlags_isDirtyDB]

/-- Witness for C5 at a concrete root: a dirty put of a, a default read of
b, and a dirty tombstone of c. -/
theorem c5_commit_flushes_exactly_dirty_witness :
    exCommitDB.isInTransaction = true ∧ exCommitDB.isPreparedDB = false ∧
    ((exCommitDB.Commit exBackendC).1 = .ok () ∧
     (exCommitDB.Commit exBackendC).2.2.2 =
       (exCommitDB.staging.entries.filter (fun v => !v.isDefault && v.dirty)).map
         (fun v => if v.deleted then BOp.del v.key else BOp.put v.key v.val) ∧
     (exCommitDB.Commit exBackendC).2.2.1 =
       exBackendC.applyOps ((exCommitDB.Commit exBackendC).2.2.2) ∧
     (exCommitDB.Commit exBackendC).2.1.isInTransaction = false ∧
     (exCommitDB.Commit exBackendC).2.1.isDirtyDB = false) :=
  ⟨rfl, rfl, c5_commit_flushes_exactly_dirty exCommitDB exBackendC rfl rfl⟩

/-- C6: with in_transaction = false, Get, Put and Del are observationally
the direct backend calls: the same result or error, the same backend
mutation, and the DB (its staging table included) unchanged. -/
theorem c6_idle_passthrough (db : MVCCDB) (backend : Backend) (k : Key) (v : Val)
    (h : db.isInTransaction = false) :
    db.GetOp backend k = (backend.get k, db) ∧
    db.PutOp backend k v = (.ok (), db, backend.put k (some v), [.put k (some v)]) ∧
    db.DelOp backend k = (.ok (), db, backend.del k, [.del k]) := by
  unfold MVCCDB.GetOp MVCCDB.PutOp MVCCDB.DelOp
  simp [h]

/-- Witness for C6 at a concrete idle DB. -/
theorem c6_idle_passthrough_witness :
    exIdleDB.isInTransaction = false ∧
    (exIdleDB.GetOp exBackendC "c" = (exBackendC.get "c", exIdleDB) ∧
     exIdleDB.PutOp exBackendC "c" "y" =
       (.ok (), exIdleDB, exBackendC.put "c" (some "y"), [.put "c" (some "y")]) ∧
     exIdleDB.DelOp exBackendC "c" = (.ok (), exIdleDB, exBackendC.del "c", [.del "c"])) :=
  ⟨rfl, c6_idle_passthrough exIdleDB exBackendC "c" "y" rfl⟩

/-- C7: with in_transaction = true, Get signals KeyNotFound exactly when
the versionized value the staging table yields is deleted or has an absent
val, and otherwise returns that val. -/
theorem c7_txn_get_keynotfound (db : MVCCDB) (backend : Backend) (k : Key)
    (h : db.isInTransaction = true) :
    ((db.GetOp backend k).1 = .error .keyNotFound ↔
      ((db.staging.GetOp backend.read k).1.deleted = true ∨
       (db.staging.GetOp backend.read k).1.val = none)) ∧
    (∀ w : Val, (db.staging.GetOp backend.read k).1.deleted = false →
      (db.staging.GetOp backend.read k).1.val = some w →
      (db.GetOp backend k).1 = .ok (some w)) := by
  unfold MVCCDB.GetOp
  cases hdel : (db.staging.GetOp backend.read k).1.deleted <;>
    cases hval : (db.staging.GetOp backend.read k).1.val <;>
      simp [h, hdel, hval]

/-- Witness for C7 at a concrete DB whose staging table holds a dirty put
of k. -/
theorem c7_txn_get_keynotfound_witness :
    exTxnDB.isInTransaction = true ∧
    (((exTxnDB.GetOp exBackendC "k").1 = .error .keyNotFound ↔
       ((exTxnDB.staging.GetOp exBackendC.read "k").1.deleted = true ∨
        (exTxnDB.staging.GetOp exBackendC.read "k").1.val = none)) ∧
     (∀ w : Val, (exTxnDB.staging.GetOp exBackendC.read "k").1.deleted = false →
       (exTxnDB.staging.GetOp exBackendC.read "k").1.val = some w →
       (exTxnDB.GetOp exBackendC "k").1 = .ok (some w))) :=
  ⟨rfl, c7_txn_get_keynotfound exTxnDB exBackendC "k" rfl⟩

/-- C8 counterexample: the claim says Begin on a prepared child fails with
the prepared-DB error, that check taking precedence over the
NestedTransaction check.  The code (mvccdb.go lines 80-95) tests
isInTransaction first, and a prepared child carries both flags, so Begin
answers the NestedTransaction error, not the prepared-DB one.  The child
here is exactly what Prepare(1) on a root in transaction returns. -/
theorem c8_begin_precedence_counterexample :
    preparedChildDB.isPreparedDB = true ∧
    preparedChildDB.isInTransaction = true ∧
    (rootInTxnDB.PrepareOp (some 1)).1 = .ok preparedChildDB ∧
    (preparedChildDB.BeginOp).1 = .error .nestedTransaction ∧
    (preparedChildDB.BeginOp).1 ≠ .error .preparedBegin := by
  refine ⟨rfl, rfl, rfl, rfl, ?_⟩
  intro hcontra
  simp [preparedChildDB, MVCCDB.BeginOp] at hcontra

/-- C8 as amended: Begin on a DB with is_prepared = true always fails, but
the NestedTransaction check comes first: the error is NestedTransaction
when the DB is already in a transaction (the case of every prepared child,
which Prepare creates with in_transaction = true), and the prepared-DB
error only when it is not. -/
theorem c8_begin_on_prepared_fails (db : MVCCDB) (h : db.isPreparedDB = true) :
    (db.BeginOp).1 =
      .error (if db.isInTransaction then Err.nestedTransaction else Err.preparedBegin) := by
  cases db with
  | mk t it ip d s c =>
    simp [MVCCDB.isPreparedDB] at h
    cases it <;> simp [MVCCDB.BeginOp, MVCCDB.isInTransaction, h]

/-- Witness for C8 at the prepared child returned by Prepare. -/
theorem c8_begin_on_prepared_fails_witness :
    preparedChildDB.isPreparedDB = true ∧
    (preparedChildDB.BeginOp).1 =
      .error (if preparedChildDB.isInTransaction then Err.nestedTransaction
              else Err.preparedBegin) :=
  ⟨rfl, c8_begin_on_prepared_fails preparedChildDB rfl⟩

mutual
/-- Purge empties every staging table at or below the node. -/
theorem MVCCDB.stagingFree_purgeAll :
    ∀ db : MVCCDB, db.purgeAll.stagingFree = true
  | .mk t it ip d s cs => by
    simp [MVCCDB.purgeAll, MVCCDB.stagingFree, MVCCDB.allStagingFree_purgeChildren cs]

/-- List form of stagingFree_purgeAll. -/
theorem MVCCDB.allStagingFree_purgeChildren :
    ∀ l : List MVCCDB, MVCCDB.allStagingFree (MVCCDB.purgeChildren l) = true
  | [] => by simp [MVCCDB.purgeChildren, MVCCDB.allStagingFree]
  | c :: rest => by
    simp [MVCCDB.purgeChildren, MVCCDB.allStagingFree, MVCCDB.stagingFree_purgeAll c,
      MVCCDB.allStagingFree_purgeChildren rest]
end

mutual
/-- Purge touches no isDirtyDB flag. -/
theorem MVCCDB.dirtyFree_purgeAll :
    ∀ db : MVCCDB, db.purgeAll.dirtyFree = db.dirtyFree
  | .mk t it ip d s cs => by
    simp [MVCCDB.purgeAll, MVCCDB.dirtyFree, MVCCDB.allDirtyFree_purgeChildren cs]

/-- List form of dirtyFree_purgeAll. -/
theorem MVCCDB.allDirtyFree_purgeChildren :
    ∀ l : List MVCCDB, MVCCDB.allDirtyFree (MVCCDB.purgeChildren l) = MVCCDB.allDirtyFree l
  | [] => by simp [MVCCDB.purgeChildren]
  | c :: rest => by
    simp [MVCCDB.purgeChildren, MVCCDB.allDirtyFree, MVCCDB.dirtyFree_purgeAll c,
      MVCCDB.allDirtyFree_purgeChildren rest]
end

mutual
/-- Reset on a well-formed prepared subtree clears every isDirtyDB flag in
it. -/
theorem MVCCDB.dirtyFree_resetOp :
    ∀ db : MVCCDB, db.wfPrepared = true → (MVCCDB.ResetOp db).2.dirtyFree = true
  | .mk t it ip d s cs => by
    intro h
    simp only [MVCCDB.wfPrepared, Bool.and_eq_true] at h
    obtain ⟨⟨hit, hip⟩, hwf⟩ := h
    simp [MVCCDB.ResetOp, hit, hip, MVCCDB.purgeAll, MVCCDB.withIsDirty,
      MVCCDB.dirtyFree, MVCCDB.allDirtyFree_purgeChildren,
      MVCCDB.allDirtyFree_resetEach cs hwf]

/-- List form of dirtyFree_resetOp. -/
theorem MVCCDB.allDirtyFree_resetEach :
    ∀ l : List MVCCDB, MVCCDB.allWfPrepared l = true →
      MVCCDB.allDirtyFree (MVCCDB.resetEach l) = true
  | [] => by
    intro h
    simp [MVCCDB.resetEach, MVCCDB.allDirtyFree]
  | c :: rest => by
    intro h
    simp only [MVCCDB.allWfPrepared, Bool.and_eq_true] at h
    simp [MVCCDB.resetEach, MVCCDB.allDirtyFree, MVCCDB.dirtyFree_resetOp c h.1,
      MVCCDB.allDirtyFree_resetEach rest h.2]
end

/-- C9: RollBack on a root in transaction (with the prepared children as
Prepare creates them) succeeds, issues no backend call and returns the
backend bytewise unchanged, clears in_transaction and is_dirty, purges the
root staging table, and leaves every registered child reset: no dirty flag
and no staging entry anywhere below. -/
theorem c9_rollback_frame (db : MVCCDB) (backend : Backend)
    (h1 : db.isInTransaction = true) (h2 : db.isPreparedDB = false)
    (h3 : MVCCDB.allWfPrepared db.preparedDBs = true) :
    (db.RollBack backend).1 = .ok () ∧
    (db.RollBack backend).2.2.1 = backend ∧
    (db.RollBack backend).2.2.2 = ([] : List BOp) ∧
    (db.RollBack backend).2.1.isInTransaction = false ∧
    (db.RollBack backend).2.1.isDirtyDB = false ∧
    (db.RollBack backend).2.1.staging.entries = [] ∧
    MVCCDB.allDirtyFree (db.RollBack backend).2.1.preparedDBs = true ∧
    MVCCDB.allStagingFree (db.RollBack backend).2.1.preparedDBs = true := by
  cases db with
  | mk t it ip d s cs =>
    simp [MVCCDB.isInTransaction] at h1
    simp [MVCCDB.isPreparedDB] at h2
    simp [MVCCDB.preparedDBs] at h3
    simp [MVCCDB.RollBack, h1, h2, MVCCDB.purgeAll, MVCCDB.isInTransaction,
      MVCCDB.isDirtyDB, MVCCDB.staging, MVCCDB.preparedDBs,
      MVCCDB.allDirtyFree_purgeChildren, MVCCDB.allDirtyFree_resetEach cs h3,
      MVCCDB.allStagingFree_purgeChildren]

/-- Witness for C9 at a concrete root in transaction with a dirty staging
record and a dirty prepared child. -/
theorem c9_rollback_frame_witness :
    exRootCommit.isInTransaction = true ∧ exRootCommit.isPreparedDB = false ∧
    MVCCDB.allWfPrepared exRootCommit.preparedDBs = true ∧
    ((exRootCommit.RollBack exBackendEmpty).1 = .ok () ∧
     (exRootCommit.RollBack exBackendEmpty).2.2.1 = exBackendEmpty ∧
     (exRootCommit.RollBack exBackendEmpty).2.2.2 = ([] : List BOp) ∧
     (exRootCommit.RollBack exBackendEmpty).2.1.isInTransaction = false ∧
     (exRootCommit.RollBack exBackendEmpty).2.1.isDirtyDB = false ∧
     (exRootCommit.RollBack exBackendEmpty).2.1.staging.entries = [] ∧
     MVCCDB.allDirtyFree (exRootCommit.RollBack exBackendEmpty).2.1.preparedDBs = true ∧
     MVCCDB.allStagingFree (exRootCommit.RollBack exBackendEmpty).2.1.preparedDBs = true) :=
  ⟨rfl, rfl, rfl, c9_rollback_frame exRootCommit exBackendEmpty rfl rfl rfl⟩

/-- C3: the claim says all merge conflict checks run before any parent
mutation, a failing merge leaving both tries exactly as before the call.
In MergeWith (trie source lines 278-321) the local initialoplog is the
same map object as the receiver's initialoplog ("record the last state"
copies only the map reference), and the insertions of the check loop
interleave with its conflict tests: a merge that fails on a later entry
has already inserted earlier entries.  Here the failing merge (k2 read as
v0 against the receiver's final write v1) leaves the receiver's initial
oplog holding k1 where it was empty before the call. -/
theorem c3_mergewith_mutates_on_failure :
    trie.BatchTrie.MergeWith exMergeBT exMergeToBT =
      .ok (false, none,
        trie.BatchTrie.mk [] [] false
          (some [("k1", trie.Entry.mk .get "k1" none none)])
          (some [("k2", trie.Entry.mk .update "k2" none (some "v1"))])) ∧
    (some [("k1", trie.Entry.mk trie.Action.get "k1" none none)] : trie.OpLog) ≠
      exMergeBT.initialoplog :=
  ⟨rfl, by decide⟩

/-- C10: BatchTrie.RollBack (trie source lines 202-226) sets both oplog
maps to nil and never reallocates them, so every subsequent Get, Put or
Del reaches an assignment into a nil map and panics, whatever the key. -/
theorem c10_rollback_makes_ops_panic (bt : trie.BatchTrie) (k : Key) (v : Val) :
    (bt.RollBackOp).initialoplog = none ∧
    (bt.RollBackOp).finaloplog = none ∧
    (bt.RollBackOp).GetOp k = .error () ∧
    (bt.RollBackOp).PutOp k v = .error () ∧
    (bt.RollBackOp).DelOp k = .error () :=
  ⟨rfl, rfl, rfl, rfl, rfl⟩

/-- The conflict test of the modelled merge, characterized: it reports the
owner of the parent record exactly when that record exists, is dirty, is
owned outside the ancestor chain, and disagrees with the captured
pre-image. -/
theorem staleConflict_eq_some_iff (parent : STable) (ancestors : List Nat)
    (r : VValue) (t : Nat) :
    staleConflict parent ancestors r = some t ↔
      ∃ p, parent.findRec r.key = some p ∧ p.ownerTid = t ∧ p.dirty = true ∧
        p.ownerTid ∉ ancestors ∧ p.val ≠ r.oldVal := by
  unfold staleConflict
  cases hp : parent.findRec r.key with
  | none => simp
  | some p =>
    by_cases h1 : p.dirty = true <;>
      by_cases h2 : p.ownerTid ∈ ancestors <;>
        by_cases h3 : p.val = r.oldVal <;>
          simp [h1, h2, h3, List.elem_iff]

/-- The conflict test reports nothing exactly when no such parent record
exists. -/
theorem staleConflict_eq_none_iff (parent : STable) (ancestors : List Nat)
    (r : VValue) :
    staleConflict parent ancestors r = none ↔
      ¬ ∃ p, parent.findRec r.key = some p ∧ p.dirty = true ∧
        p.ownerTid ∉ ancestors ∧ p.val ≠ r.oldVal := by
  unfold staleConflict
  cases hp : parent.findRec r.key with
  | none => simp
  | some p =>
    by_cases h1 : p.dirty = true <;>
      by_cases h2 : p.ownerTid ∈ ancestors <;>
        by_cases h3 : p.val = r.oldVal <;>
          simp [h1, h2, h3, List.elem_iff]

/-- The check phase finds no conflict exactly when no child record has
one. -/
theorem firstConflict_eq_none_iff (parent : STable) (ancestors : List Nat)
    (l : List VValue) :
    firstConflict parent ancestors l = none ↔
      ∀ r ∈ l, staleConflict parent ancestors r = none := by
  induction l with
  | nil => simp [firstConflict]
  | cons r rest ih =>
    cases hc : staleConflict parent ancestors r with
    | none => simp [firstConflict, hc, ih]
    | some t => simp [firstConflict, hc]

/-- A conflict the check phase reports comes from some child record. -/
theorem firstConflict_eq_some (parent : STable) (ancestors : List Nat)
    (l : List VValue) (t : Nat)
    (h : firstConflict parent ancestors l = some t) :
    ∃ r ∈ l, staleConflict parent ancestors r = some t := by
  induction l with
  | nil => simp [firstConflict] at h
  | cons r rest ih =>
    cases hc : staleConflict parent ancestors r with
    | none =>
      simp [firstConflict, hc] at h
      obtain ⟨r2, hr2, hs⟩ := ih h
      exact ⟨r2, List.mem_cons_of_mem r hr2, hs⟩
    | some t2 =>
      simp [firstConflict, hc] at h
      exact ⟨r, List.mem_cons_self r rest, by rw [hc, h]⟩

/-- C4: the modelled merge_to_parent fails exactly when some key the child
touched (read or written) has a parent record that is a dirty write by a
transaction outside the child's ancestor chain whose value disagrees with
the old value the child captured; on failure the error names that sibling
owner and both tables are returned unchanged; with no such key the merge
succeeds. -/
theorem c4_merge_conflict_characterized (child parent : STable)
    (ancestors : List Nat) :
    ((∃ r ∈ child.entries, ∃ p, parent.findRec r.key = some p ∧ p.dirty = true ∧
        p.ownerTid ∉ ancestors ∧ p.val ≠ r.oldVal) ↔
      ∃ t, (MergeToParent child parent ancestors).1 =
        .error (.conflictWithSibling t)) ∧
    (∀ t, (MergeToParent child parent ancestors).1 =
        .error (.conflictWithSibling t) →
      (MergeToParent child parent ancestors).2.1 = child ∧
      (MergeToParent child parent ancestors).2.2 = parent ∧
      ∃ r ∈ child.entries, ∃ p, parent.findRec r.key = some p ∧
        p.ownerTid = t ∧ p.dirty = true ∧ p.ownerTid ∉ ancestors ∧
        p.val ≠ r.oldVal) ∧
    ((¬ ∃ r ∈ child.entries, ∃ p, parent.findRec r.key = some p ∧
        p.dirty = true ∧ p.ownerTid ∉ ancestors ∧ p.val ≠ r.oldVal) →
      ∃ tids, (MergeToParent child parent ancestors).1 = .ok tids) := by
  cases hf : firstConflict parent ancestors child.entries with
  | some t0 =>
    obtain ⟨r, hr, hs⟩ := firstConflict_eq_some parent ancestors child.entries t0 hf
    rw [staleConflict_eq_some_iff] at hs
    obtain ⟨p, hp, hpt, hpd, hpa, hpv⟩ := hs
    refine ⟨⟨fun _ => ⟨t0, by simp [MergeToParent, hf]⟩,
            fun _ => ⟨r, hr, p, hp, hpd, hpa, hpv⟩⟩, ?_, ?_⟩
    · intro t ht
      simp only [MergeToParent, hf] at ht
      simp only [Except.error.injEq, Err.conflictWithSibling.injEq] at ht
      refine ⟨by simp [MergeToParent, hf], by simp [MergeToParent, hf],
              r, hr, p, hp, ?_, hpd, hpa, hpv⟩
      rw [hpt, ht]
    · intro hno
      exact absurd ⟨r, hr, p, hp, hpd, hpa, hpv⟩ hno
  | none =>
    rw [firstConflict_eq_none_iff] at hf
    refine ⟨⟨?_, ?_⟩, ?_, ?_⟩
    · intro hex
      obtain ⟨r, hr, p, hp, hpd, hpa, hpv⟩ := hex
      have hn := hf r hr
      rw [staleConflict_eq_none_iff] at hn
      exact absurd ⟨p, hp, hpd, hpa, hpv⟩ hn
    · intro hex
      obtain ⟨t, ht⟩ := hex
      rw [← firstConflict_eq_none_iff] at hf
      simp [MergeToParent, hf] at ht
    · intro t ht
      rw [← firstConflict_eq_none_iff] at hf
      simp [MergeToParent, hf] at ht
    · intro _
      rw [← firstConflict_eq_none_iff] at hf
      exact ⟨(mergeApply parent.ownerTid parent [] child.entries).2,
        by simp [MergeToParent, hf]⟩
